import Mathlib

/-!
Verification of the pybbdb contact-database parser and serializer.

This file gives a shallow embedding, in Lean 4, of the Python sources:

* `bbdb.py` — the record model (`BBDB`, `Record`, `Address`), the `quote`
  escaping function and the serializer (`Record.outputs`, `BBDB.write`,
  `BBDB.update_fields`, the header scan of `BBDB.read`);
* `bbdb/parser.py` — the header property extraction (`properties` and the
  scanning loop of `parse`), version selection, the `grammars` table and
  the two pyparsing grammars `make_grammar_2` / `make_grammar_9`, embedded
  here as recursive-descent parsers over `List Char`.

Python values that are dynamically typed in the source are embedded as
inductive types (`PhoneVal`); code that can raise at runtime is embedded
as `Option`-valued functions, `none` marking the raised exception.

Notes on the pyparsing embedding: pyparsing skips whitespace (space, tab,
newline) before every terminal, and the `bbdb.ignore(comment)` call makes
runs of `;`-to-end-of-line comments skippable in the same positions; both
are embedded in `skipWS`.  `Group(...)` in pyparsing only groups result
tokens and adds nothing to the concrete syntax; the helper `Paren` in the
source adds literal parentheses, `Bracket` literal square brackets.
Several loops are written with an explicit fuel argument equal to the
input length so that every definition is structurally recursive (and hence
reducible by the kernel); each loop body consumes at least one character
per iteration, so the fuel never runs out before the input does.
-/

/-! ## Low-level string escaping (bbdb.py `quote`, bbdb/parser.py `make_string`) -/

/-- One step of Python's `s.replace('"', '\\"')`: every double quote is
replaced by backslash+quote.  This embeds the body of `quote` in
`bbdb.py` (line 425) and `bbdb/utils.py` (line 58). -/
def rep : List Char → List Char
  | [] => []
  | c :: t => if c = '"' then '\\' :: '"' :: rep t else c :: rep t

/-- Python's `s.replace('\\"', '"')`: a leftmost-first, non-overlapping scan
replacing each backslash+quote pair by a double quote.  This embeds the
`.replace(r'\"', '"')` step of `make_string` in `bbdb/parser.py`
(lines 74-75 and 180-181). -/
def unrep : List Char → List Char
  | [] => []
  | [c] => [c]
  | c :: d :: t =>
    if c = '\\' then
      (if d = '"' then '"' :: unrep t else c :: unrep (d :: t))
    else c :: unrep (d :: t)

/-- `quote` from `bbdb.py` line 424-425: wrap in double quotes, escaping each
internal double quote with a backslash. -/
def quote (s : String) : String := String.mk ('"' :: rep s.data ++ ['"'])

/-- `make_string` from `bbdb/parser.py` lines 74-75: strip the surrounding
quotes (`t[0][1:-1]`) and un-escape each backslash+quote pair. -/
def make_string (s : String) : String := String.mk (unrep ((s.data.drop 1).dropLast))

/-! ## Tokenizer-level helpers for the pyparsing grammars -/

/-- pyparsing's default skippable whitespace characters (space, newline, tab). -/
def isWSChar (c : Char) : Bool := c = ' ' || c = '\n' || c = '\t'

/-- Fuelled worker for `skipWS`: drop whitespace and `;`-comments (the
`bbdb.ignore(comment)` of both grammars, comment regex `;.*`). -/
def skipWSGo : Nat → List Char → List Char
  | _, [] => []
  | 0, l => l
  | fuel + 1, c :: t =>
    if isWSChar c then skipWSGo fuel t
    else if c = ';' then skipWSGo fuel (t.dropWhile (fun x => x ≠ '\n'))
    else c :: t

/-- Skip whitespace and comment runs, as pyparsing does before each terminal. -/
def skipWS (l : List Char) : List Char := skipWSGo l.length l

/-- pyparsing `Keyword` boundary characters (`alphanums + "_$"`). -/
def identChar (c : Char) : Bool := c.isAlphanum || c = '_' || c = '$'

/-- Characters accepted by the `atom` terminal, `Word(alphanums + '-')`. -/
def atomChar (c : Char) : Bool := c.isAlphanum || c = '-'

/-- Value of a run of decimal digits, embedding Python's `int`. -/
def digitsToNat (ds : List Char) : Nat :=
  ds.foldl (fun n c => n * 10 + (c.toNat - 48)) 0

/-- A deterministic parser over character lists: on success, a value and the
rest of the input. -/
abbrev P (α : Type) : Type := List Char → Option (α × List Char)

/-- Fuelled body of the quoted-string terminal
`QuotedString(quoteChar='"', escChar='\\')`: collect raw content characters
up to an unescaped closing quote; an escaping backslash always consumes the
following character; a bare newline inside the string is a failure
(`multiline=False`). -/
def quotedRawGo : Nat → List Char → Option (List Char × List Char)
  | _, [] => none
  | 0, _ => none
  | fuel + 1, c :: t =>
    if c = '"' then some ([], t)
    else if c = '\\' then
      match t with
      | [] => none
      | d :: t2 =>
        if d = '\n' then none
        else (quotedRawGo fuel t2).map (fun p => (c :: d :: p.1, p.2))
    else if c = '\n' then none
    else if c = '\r' then none
    else (quotedRawGo fuel t).map (fun p => (c :: p.1, p.2))

/-- The `string` terminal of `make_grammar_2`/`make_grammar_9`: a quoted
string with `unquoteResults=False` whose parse action `make_string` strips
the quotes and un-escapes `\"`. -/
def parse_str : P String := fun l =>
  match skipWS l with
  | '"' :: t => (quotedRawGo t.length t).map (fun p => (String.mk (unrep p.1), p.2))
  | _ => none

/-- The `nil` terminal, `Keyword("nil")`: the three letters `nil` not
followed by an identifier character. -/
def parse_nil : P Unit := fun l =>
  let l1 := skipWS l
  if (String.data "nil").isPrefixOf l1 then
    match l1.drop 3 with
    | [] => some ((), [])
    | c :: t => if identChar c then none else some ((), c :: t)
  else none

/-- The `atom` terminal, `Word(alphanums + '-')`: a maximal nonempty run of
atom characters. -/
def parse_atom : P String := fun l =>
  let l1 := skipWS l
  let a := l1.takeWhile atomChar
  if a.isEmpty then none else some (String.mk a, l1.dropWhile atomChar)

/-- The `dot` terminal, `Suppress(Keyword("."))`: a literal dot not followed
by an identifier character. -/
def parse_dot : P Unit := fun l =>
  match skipWS l with
  | '.' :: t =>
    match t with
    | [] => some ((), [])
    | c :: r => if identChar c then none else some ((), c :: r)
  | _ => none

/-- The `integer` terminal, `Word(nums)` with parse action `int`. -/
def parse_int : P Nat := fun l =>
  let l1 := skipWS l
  let ds := l1.takeWhile Char.isDigit
  if ds.isEmpty then none else some (digitsToNat ds, l1.dropWhile Char.isDigit)

/-- A single suppressed literal character (the `LP`/`RP`/`LB`/`RB`
punctuation of the grammars). -/
def parse_tok (c : Char) : P Unit := fun l =>
  match skipWS l with
  | x :: t => if x = c then some ((), t) else none
  | [] => none

/-- Fuelled repetition: parse `p` as often as it succeeds (pyparsing
`ZeroOrMore`); each success consumes at least one character, so fuel equal
to the input length is enough. -/
def manyGo {α : Type} (p : P α) : Nat → List Char → List α × List Char
  | 0, l => ([], l)
  | fuel + 1, l =>
    match p l with
    | none => ([], l)
    | some (a, rest) =>
      let r := manyGo p fuel rest
      (a :: r.1, r.2)

/-- pyparsing `OneOrMore p`. -/
def many1 {α : Type} (p : P α) : P (List α) := fun l =>
  match p l with
  | none => none
  | some (a, rest) =>
    let r := manyGo p rest.length rest
    some (a :: r.1, r.2)

/-- The source helper `Paren`: `( p+ )` with literal parentheses. -/
def parenMany1 {α : Type} (p : P α) : P (List α) := fun l => do
  let (_, l1) ← parse_tok '(' l
  let (xs, l2) ← many1 p l1
  let (_, l3) ← parse_tok ')' l2
  pure (xs, l3)

/-! ## Python dictionaries built by the `make_dict` parse actions -/

/-- Python `d[k] = v` on an insertion-ordered dictionary: an existing key
keeps its position and gets the new value, a new key is appended. -/
def dictInsert {α : Type} : List (String × α) → String → α → List (String × α)
  | [], k, v => [(k, v)]
  | (k0, v0) :: t, k, v =>
    if k0 = k then (k0, v) :: t else (k0, v0) :: dictInsert t k v

/-- The dict comprehension `{k: v for k, v in pairs}` of `make_dict`
(`bbdb/parser.py` lines 54-55): later values for a duplicated key win, the
first occurrence's position is kept.  The `make_odict` helper of `bbdb.py`
lines 37-42 builds the same mapping. -/
def pyDict {α : Type} (ps : List (String × α)) : List (String × α) :=
  ps.foldl (fun d kv => dictInsert d kv.1 kv.2) []

/-! ## The data produced by the grammars -/

/-- A phone value: `phone_usa = Group(OneOrMore(integer))` — a sequence of
bare integers — or `phone_nonusa = string`.  (Python stores either a token
list of ints or a str; the embedding separates the two shapes.) -/
inductive PhoneVal where
  | ints : List Nat → PhoneVal
  | str : String → PhoneVal
deriving DecidableEq

/-- The dict built by `make_address_entry` in `bbdb/parser.py`
(keys location/city/state/zipcode/country). -/
structure AddrData where
  location : List String
  city : String
  state : String
  zipcode : String
  country : String
deriving DecidableEq

/-- The dict built by `make_record` in `make_grammar_2`
(`bbdb/parser.py` lines 64-72): no `cache` key is stored. -/
structure Rec2 where
  firstname : String
  lastname : String
  aka : List String
  company : String
  phone : List (String × PhoneVal)
  address : List (String × AddrData)
  net : List String
  fields : List (String × String)
deriving DecidableEq

/-- The dict built by `make_record` in `make_grammar_9`
(`bbdb/parser.py` lines 165-178). -/
structure Rec9 where
  firstname : String
  lastname : String
  affix : List String
  aka : List String
  company : String
  phone : List (String × PhoneVal)
  address : List (String × AddrData)
  net : List String
  fields : List (String × String)
  uuid : String
  creation : String
  timestamp : String
deriving DecidableEq

/-! ## The sub-grammars shared by `make_grammar_2` and `make_grammar_9` -/

/-- `Or([phone_usa, phone_nonusa])`: a nonempty run of integers, or a
string (the alternatives start with distinct characters, so pyparsing's
longest-match `Or` behaves like ordered choice here). -/
def parse_phone_val : P PhoneVal := fun l =>
  match many1 parse_int l with
  | some p => some (PhoneVal.ints p.1, p.2)
  | none => (parse_str l).map (fun p => (PhoneVal.str p.1, p.2))

/-- `phone_entry = Bracket(string("tag") + Or([phone_usa, phone_nonusa]))`. -/
def parse_phone_entry : P (String × PhoneVal) := fun l => do
  let (_, l1) ← parse_tok '[' l
  let (tag, l2) ← parse_str l1
  let (v, l3) ← parse_phone_val l2
  let (_, l4) ← parse_tok ']' l3
  pure ((tag, v), l4)

/-- `phone = Or([Paren(OneOrMore(phone_entry)), nil])` with parse action
`make_dict`; `nil` gives the empty dict. -/
def parse_phone : P (List (String × PhoneVal)) := fun l =>
  match parenMany1 parse_phone_entry l with
  | some p => some (pyDict p.1, p.2)
  | none => (parse_nil l).map (fun p => ([], p.2))

/-- `location = Paren(OneOrMore(string))` (required, never `nil`). -/
def parse_location : P (List String) := parenMany1 parse_str

/-- `address_entry = Bracket(string("tag") + location + city + state +
zipcode + country)` with parse action `make_address_entry`. -/
def parse_address_entry : P (String × AddrData) := fun l => do
  let (_, l1) ← parse_tok '[' l
  let (tag, l2) ← parse_str l1
  let (loc, l3) ← parse_location l2
  let (city, l4) ← parse_str l3
  let (st, l5) ← parse_str l4
  let (zipc, l6) ← parse_str l5
  let (country, l7) ← parse_str l6
  let (_, l8) ← parse_tok ']' l7
  pure ((tag, AddrData.mk loc city st zipc country), l8)

/-- `address = Or([Paren(OneOrMore(address_entry)), nil])` with `make_dict`. -/
def parse_address : P (List (String × AddrData)) := fun l =>
  match parenMany1 parse_address_entry l with
  | some p => some (pyDict p.1, p.2)
  | none => (parse_nil l).map (fun p => ([], p.2))

/-- `field = Paren(atom + dot + string)`. -/
def parse_field : P (String × String) := fun l => do
  let (_, l1) ← parse_tok '(' l
  let (tag, l2) ← parse_atom l1
  let (_, l3) ← parse_dot l2
  let (v, l4) ← parse_str l3
  let (_, l5) ← parse_tok ')' l4
  pure ((tag, v), l5)

/-- `fields = Or([Paren(OneOrMore(field)), nil])` with `make_dict`. -/
def parse_fields : P (List (String × String)) := fun l =>
  match parenMany1 parse_field l with
  | some p => some (pyDict p.1, p.2)
  | none => (parse_nil l).map (fun p => ([], p.2))

/-- `Or([Paren(OneOrMore(string)), nil])` with `make_list` and the
`or []` normalization in `make_record` — used for `aka`, `net`, `affix`. -/
def parse_strlist : P (List String) := fun l =>
  match parenMany1 parse_str l with
  | some p => some p
  | none => (parse_nil l).map (fun p => ([], p.2))

/-- `company = Or([string, nil])("company")` with the `or ""` normalization
in `make_record`: `nil` becomes the empty string. -/
def parse_company : P String := fun l =>
  match parse_str l with
  | some p => some p
  | none => (parse_nil l).map (fun p => ("", p.2))

/-- The lastname slot of `name = string("firstname") +
Or([string("lastname"), nil])` (`bbdb/parser.py` lines 114 and 220):
when `nil` matches, the `lastname` results name is absent and pyparsing's
missing-name lookup yields the empty string, which `make_record` stores. -/
def parse_lastname : P String := fun l =>
  match parse_str l with
  | some p => some p
  | none => (parse_nil l).map (fun p => ("", p.2))

/-! ## The two record grammars -/

/-- `record` of `make_grammar_2`:
`Bracket(name + aka + company + phone + address + net + fields + cache)`
with parse action `make_record`. -/
def parse_record_2 : P Rec2 := fun l => do
  let (_, l1) ← parse_tok '[' l
  let (fn, l2) ← parse_str l1
  let (ln, l3) ← parse_lastname l2
  let (aka, l4) ← parse_strlist l3
  let (co, l5) ← parse_company l4
  let (ph, l6) ← parse_phone l5
  let (ad, l7) ← parse_address l6
  let (net, l8) ← parse_strlist l7
  let (fs, l9) ← parse_fields l8
  let (_, l10) ← parse_nil l9
  let (_, l11) ← parse_tok ']' l10
  pure (Rec2.mk fn ln aka co ph ad net fs, l11)

/-- `record` of `make_grammar_9`: `Bracket(name + affix + aka + company +
phone + address + net + fields + uuid + creation + timestamp + cache)`. -/
def parse_record_9 : P Rec9 := fun l => do
  let (_, l1) ← parse_tok '[' l
  let (fn, l2) ← parse_str l1
  let (ln, l3) ← parse_lastname l2
  let (affix, l4) ← parse_strlist l3
  let (aka, l5) ← parse_strlist l4
  let (co, l6) ← parse_company l5
  let (ph, l7) ← parse_phone l6
  let (ad, l8) ← parse_address l7
  let (net, l9) ← parse_strlist l8
  let (fs, l10) ← parse_fields l9
  let (uuid, l11) ← parse_str l10
  let (creation, l12) ← parse_str l11
  let (ts, l13) ← parse_str l12
  let (_, l14) ← parse_nil l13
  let (_, l15) ← parse_tok ']' l14
  pure (Rec9.mk fn ln affix aka co ph ad net fs uuid creation ts, l15)

/-- `bbdb = ZeroOrMore(record)` run with `parseAll=True` for grammar 2:
the element's `preParse` first skips whitespace and ignored comments; after
the last record only plain whitespace may remain (the final
`Empty() + StringEnd()` check does not skip comments). -/
def run_grammar_2 (text : List Char) : Option (List Rec2) :=
  let t0 := skipWS text
  let r := manyGo parse_record_2 t0.length t0
  if (r.2.dropWhile isWSChar).isEmpty then some r.1 else none

/-- `bbdb = ZeroOrMore(record)` run with `parseAll=True` for grammar 9. -/
def run_grammar_9 (text : List Char) : Option (List Rec9) :=
  let t0 := skipWS text
  let r := manyGo parse_record_9 t0.length t0
  if (r.2.dropWhile isWSChar).isEmpty then some r.1 else none

/-! ## Header property extraction (`re.search` on comment lines) -/

/-- Python `text.split("\n")` — split at every newline, keeping empty
pieces. -/
def splitLinesGo : List Char → List Char → List (List Char)
  | [], acc => [acc.reverse]
  | c :: t, acc =>
    if c = '\n' then acc.reverse :: splitLinesGo t []
    else splitLinesGo t (c :: acc)

/-- Python `text.split("\n")`. -/
def splitLines (l : List Char) : List (List Char) := splitLinesGo l []

/-- Python whitespace for no-argument `str.split()`. -/
def isPySpace (c : Char) : Bool :=
  c = ' ' || c = '\t' || c = '\n' || c = '\r' || c = '\x0b' || c = '\x0c'

/-- Worker for Python's no-argument `str.split()`: split on runs of
whitespace, dropping empty pieces. -/
def pySplitGo : List Char → List Char → List String
  | [], acc => if acc.isEmpty then [] else [String.mk acc.reverse]
  | c :: t, acc =>
    if isPySpace c then
      (if acc.isEmpty then pySplitGo t []
       else String.mk acc.reverse :: pySplitGo t [])
    else pySplitGo t (c :: acc)

/-- Python's no-argument `str.split()`. -/
def pySplit (l : List Char) : List String := pySplitGo l []

/-- The content before the last occurrence of `target` in the list, if
`target` occurs: the greedy backtracking of `(.+)target` in a regex takes
everything up to the last `target`. -/
def beforeLastChar (target : Char) : List Char → Option (List Char)
  | [] => none
  | c :: t =>
    match beforeLastChar target t with
    | some p => some (c :: p)
    | none => if c = target then some [] else none

/-- Try the regex `coding: (.+);` anchored at the start of `l`: the literal
prefix, then a nonempty greedy capture up to the last `;`. -/
def matchCodingAt (l : List Char) : Option (List Char) :=
  if (String.data "coding: ").isPrefixOf l then
    match beforeLastChar ';' (l.drop 8) with
    | some p => if p.isEmpty then none else some p
    | none => none
  else none

/-- `re.search(r"coding: (.+);", line)`: try the pattern at each position
from the left. -/
def searchCoding : List Char → Option (List Char)
  | [] => none
  | c :: t =>
    match matchCodingAt (c :: t) with
    | some v => some v
    | none => searchCoding t

/-- The `coding` property extractor (pattern `coding: (.+);`, value stored
verbatim). -/
def re_search_coding (l : List Char) : Option String :=
  (searchCoding l).map String.mk

/-- Try `pat(\d+)` anchored at the start of `l`: the literal prefix, then a
nonempty greedy run of digits, converted by `int`. -/
def matchNumAt (pat : List Char) (l : List Char) : Option Nat :=
  if pat.isPrefixOf l then
    let ds := (l.drop pat.length).takeWhile Char.isDigit
    if ds.isEmpty then none else some (digitsToNat ds)
  else none

/-- `re.search` for a literal-prefix-then-digits pattern. -/
def searchNum (pat : List Char) : List Char → Option Nat
  | [] => none
  | c :: t =>
    match matchNumAt pat (c :: t) with
    | some v => some v
    | none => searchNum pat t

/-- The `file-version: (\d+)` extractor. -/
def re_search_fileversion (l : List Char) : Option Nat :=
  searchNum (String.data "file-version: ") l

/-- The `file-format: (\d+)` extractor (`bbdb/parser.py` only). -/
def re_search_fileformat (l : List Char) : Option Nat :=
  searchNum (String.data "file-format: ") l

/-- Try `user-fields: \((.+)\)` anchored at the start of `l`; the captured
text is split with Python's `s.split()`. -/
def matchUserfieldsAt (l : List Char) : Option (List String) :=
  if (String.data "user-fields: (").isPrefixOf l then
    match beforeLastChar ')' (l.drop 14) with
    | some p => if p.isEmpty then none else some (pySplit p)
    | none => none
  else none

/-- `re.search` for the `user-fields` pattern. -/
def searchUserfields : List Char → Option (List String)
  | [] => none
  | c :: t =>
    match matchUserfieldsAt (c :: t) with
    | some v => some v
    | none => searchUserfields t

/-- The `user-fields: \((.+)\)` extractor (`bbdb.py` `BBDB.props` only). -/
def re_search_userfields (l : List Char) : Option (List String) :=
  searchUserfields l

/-! ## `bbdb/parser.py` `parse`: property scan, version selection, grammars -/

/-- The comment-line scan of `parse` (`bbdb/parser.py` lines 21-26) over the
`properties` tuple: for each line starting with `;` the three patterns are
tried in tuple order (`coding`, `file-format`, `file-version`) and every
match overwrites the stored value in the `data` dict. -/
def parser_scan (lines : List (List Char)) : Option String × Option Nat :=
  lines.foldl
    (fun st line =>
      if line.head? = some ';' then
        let c := match re_search_coding line with
          | some v => some v
          | none => st.1
        let f1 := match re_search_fileformat line with
          | some v => some v
          | none => st.2
        let f2 := match re_search_fileversion line with
          | some v => some v
          | none => f1
        (c, f2)
      else st)
    (none, none)

/-- `version = data.get("fileversion", version or 2)`
(`bbdb/parser.py` line 29): an extracted version wins; otherwise a truthy
`version` argument; otherwise 2 (`None` and `0` are falsy). -/
def selectVersion (text : List Char) (version : Option Nat) : Nat :=
  match (parser_scan (splitLines text)).2 with
  | some v => v
  | none =>
    match version with
    | some h => if h = 0 then 2 else h
    | none => 2

/-- The two grammar constructors of the `grammars` table. -/
inductive GrammarV where
  | v2 : GrammarV
  | v9 : GrammarV
deriving DecidableEq

/-- `grammars = {2: make_grammar_2, 9: make_grammar_9}`
(`bbdb/parser.py` line 255), as a partial map; `grammars[version]` on any
other key raises `KeyError`. -/
def grammars (n : Nat) : Option GrammarV :=
  if n = 2 then some GrammarV.v2
  else if n = 9 then some GrammarV.v9
  else none

/-- The exceptions `parse` can raise: `KeyError` from the `grammars` lookup,
or a pyparsing `ParseException`. -/
inductive ParseErr where
  | keyError : Nat → ParseErr
  | parseError : ParseErr
deriving DecidableEq

/-- The `data` dict returned by `parse`: the extracted properties plus the
records of whichever grammar ran. -/
structure ParseData where
  coding : Option String
  fileversion : Option Nat
  records : Sum (List Rec2) (List Rec9)
deriving DecidableEq

/-- `parse(text, version=None)` from `bbdb/parser.py` lines 17-36: scan the
comment lines, select the version, look the grammar up (KeyError when the
version is not a key), run it with `parseAll=True`. -/
def parse (text : List Char) (version : Option Nat) : Except ParseErr ParseData :=
  match grammars (selectVersion text version) with
  | none => Except.error (ParseErr.keyError (selectVersion text version))
  | some GrammarV.v2 =>
    match run_grammar_2 text with
    | some rs =>
      Except.ok
        ⟨(parser_scan (splitLines text)).1, (parser_scan (splitLines text)).2,
          Sum.inl rs⟩
    | none => Except.error ParseErr.parseError
  | some GrammarV.v9 =>
    match run_grammar_9 text with
    | some rs =>
      Except.ok
        ⟨(parser_scan (splitLines text)).1, (parser_scan (splitLines text)).2,
          Sum.inr rs⟩
    | none => Except.error ParseErr.parseError

/-! ## The `bbdb.py` record model and serializer -/

/-- The `Address` class of `bbdb.py` (lines 343-417): constructor defaults
are empty collections / empty strings. -/
structure Address where
  lines : List String := []
  city : String := ""
  state : String := ""
  zipcode : String := ""
  country : String := ""
deriving DecidableEq

/-- The `Record` class of `bbdb.py` (lines 204-341), with the constructor
defaults of `Record.__init__`.  The dynamically typed phone values are
embedded as `PhoneVal`; `cache` is always `None` and carries no data. -/
structure Record where
  firstname : String := ""
  lastname : String := ""
  company : String := ""
  aka : List String := []
  phone : List (String × PhoneVal) := []
  address : List (String × Address) := []
  net : List String := []
  fields : List (String × String) := []
deriving DecidableEq

/-- The `BBDB` class of `bbdb.py` with the defaults of `BBDB.__init__`
(lines 123-135): `coding` "utf-8-emacs", `fileversion` 6, empty
`userfields`, empty `records`. -/
structure BBDB where
  coding : String := "utf-8-emacs"
  fileversion : Nat := 6
  userfields : List String := []
  records : List Record := []
deriving DecidableEq

/-- A `BBDB` database constructed with no arguments. -/
def BBDB_init : BBDB := {}

/-- The derived `name` property of `Record` (`bbdb.py` lines 257-259):
`self.firstname + " " + self.lastname`, with no trimming. -/
def Record.name (r : Record) : String := r.firstname ++ " " ++ r.lastname

/-- Python's `sep.join(list)`. -/
def joinSep (sep : String) : List String → String
  | [] => ""
  | [x] => x
  | x :: y :: t => x ++ sep ++ joinSep sep (y :: t)

/-- One entry of the phone output loop in `Record.outputs` (`bbdb.py`
lines 307-313): `"[" + " ".join(map(quote, items)) + "]"` applies `quote`
to the tag and to the value.  When the value is a list of integers it has
no `.replace` method and Python raises `AttributeError`, embedded as
`none`; a string value is quoted normally. -/
def phone_item_out (tag : String) (v : PhoneVal) : Option String :=
  match v with
  | PhoneVal.str s => some ("[" ++ quote tag ++ " " ++ quote s ++ "]")
  | PhoneVal.ints _ => none

/-- `Address.outputs` (`bbdb.py` lines 388-397): the lines list or `nil`,
then the four quoted strings. -/
def Address.outputs (a : Address) : List String :=
  (if a.lines.isEmpty then "nil"
   else "(" ++ joinSep " " (a.lines.map quote) ++ ")") ::
    quote a.city :: quote a.state :: quote a.zipcode :: quote a.country :: []

/-- `Record.outputs` (`bbdb.py` lines 293-337): the ordered token list of a
serialized record; empty (falsy) collections yield the literal `nil`.
The result is `none` exactly when the phone loop raises `AttributeError`
(see `phone_item_out`). -/
def Record.outputs (r : Record) : Option (List String) :=
  match
    (if r.phone.isEmpty then some "nil"
     else (r.phone.mapM (fun kv => phone_item_out kv.1 kv.2)).map
       (fun es => "(" ++ joinSep " " es ++ ")"))
  with
  | none => none
  | some phonePart =>
    some
      [quote r.firstname, quote r.lastname,
        (if r.aka.isEmpty then "nil"
         else "(" ++ joinSep " " (r.aka.map quote) ++ ")"),
        (if r.company = "" then "nil" else quote r.company),
        phonePart,
        (if r.address.isEmpty then "nil"
         else "(" ++ joinSep " "
           (r.address.map (fun kv =>
             "[" ++ quote kv.1 ++ " " ++ joinSep " " (Address.outputs kv.2) ++ "]")) ++ ")"),
        (if r.net.isEmpty then "nil"
         else "(" ++ joinSep " " (r.net.map quote) ++ ")"),
        (if r.fields.isEmpty then "nil"
         else "(" ++ joinSep " "
           (r.fields.map (fun kv =>
             "(" ++ kv.1 ++ " . " ++ quote kv.2 ++ ")")) ++ ")"),
        "nil"]

/-- The body of the inner loop of `BBDB.update_fields` (`bbdb.py`
lines 178-182): append the tag to `userfields` unless already present. -/
def addTag (u : List String) (t : String) : List String :=
  if t ∈ u then u else u ++ [t]

/-- `BBDB.update_fields` (`bbdb.py` lines 178-182): walk every record's
field tags in order, appending unseen tags to `userfields`. -/
def BBDB.update_fields (db : BBDB) : BBDB :=
  { db with
    userfields :=
      db.records.foldl (fun u r => (r.fields.map Prod.fst).foldl addTag u)
        db.userfields }

/-- `BBDB.write` (`bbdb.py` lines 184-194): run `update_fields`, emit the
three header comment lines, then one bracketed line per record.  The
result is `none` when `Record.outputs` raises (integer phone values). -/
def BBDB.write (db : BBDB) : Option String :=
  let db1 := BBDB.update_fields db
  match
    db1.records.mapM (fun r =>
      (Record.outputs r).map (fun outs => "[" ++ joinSep " " outs ++ "]\n"))
  with
  | none => none
  | some recLines =>
    some
      (";; -*-coding: " ++ db1.coding ++ ";-*-\n" ++
        ";;; file-version: " ++ toString db1.fileversion ++ "\n" ++
        ";;; user-fields: (" ++ joinSep " " db1.userfields ++ ")\n" ++
        String.join recLines)

/-! ## The header scan of `BBDB.read` (`bbdb.py` lines 153-161) -/

/-- Processing of a single line by the scan loop of `BBDB.read`: for a line
starting with `;`, the three `BBDB.props` patterns (`coding`,
`file-version`, `user-fields`) are tried in order and each match overwrites
the stored attribute. -/
def read_step (db : BBDB) (line : List Char) : BBDB :=
  if line.head? = some ';' then
    let db1 := match re_search_coding line with
      | some v => { db with coding := v }
      | none => db
    let db2 := match re_search_fileversion line with
      | some v => { db1 with fileversion := v }
      | none => db1
    match re_search_userfields line with
    | some v => { db2 with userfields := v }
    | none => db2
  else db

/-- The header-scanning loop of `BBDB.read` (`bbdb.py` lines 156-161),
applied to the split lines of the input text.  (The records produced by
the grammar are appended separately and do not touch these properties.) -/
def read_props (db : BBDB) (lines : List (List Char)) : BBDB :=
  lines.foldl read_step db

/-- The value the `coding` pattern extracts from a line when the line is a
comment line; used to state which line's match ends up stored. -/
def codingOfLine (l : List Char) : Option String :=
  if l.head? = some ';' then re_search_coding l else none

/-- As `codingOfLine`, for the `file-version` pattern. -/
def fileversionOfLine (l : List Char) : Option Nat :=
  if l.head? = some ';' then re_search_fileversion l else none

/-- As `codingOfLine`, for the `user-fields` pattern. -/
def userfieldsOfLine (l : List Char) : Option (List String) :=
  if l.head? = some ';' then re_search_userfields l else none

/-! ## Concrete inputs used by the claim theorems -/

/-- The record of the spec's concrete scenario, built purely in memory:
its phone value is the integer sequence (555, 1234). -/
def fredRecord : Record :=
  { firstname := "Fred", lastname := "Flintstone", company := "Slate Rock",
    phone := [("Home", PhoneVal.ints [555, 1234])],
    net := ["fred@bedrock.org"], fields := [("spouse", "Wilma")] }

/-- A database holding only `fredRecord`. -/
def fredDB : BBDB := { records := [fredRecord] }

/-- A well-formed in-memory record whose only phone entry holds an ordered
sequence of integers. -/
def officeRecord : Record :=
  { firstname := "Barney", phone := [("Office", PhoneVal.ints [1234, 5678])] }

/-- A database holding only `officeRecord`. -/
def officeDB : BBDB := { records := [officeRecord] }

/-- Version-2 input whose record text carries the literal `nil` in the
lastname position. -/
def c5_text2 : String :=
  ";;; file-version: 2\n[\"John\" nil nil nil nil nil nil nil nil]\n"

/-- The record `c5_text2` parses to. -/
def c5_rec2 : Rec2 :=
  { firstname := "John", lastname := "", aka := [], company := "",
    phone := [], address := [], net := [], fields := [] }

/-- Version-9 input whose record text carries the literal `nil` in the
lastname position. -/
def c5_text9 : String :=
  ";;; file-version: 9\n[\"John\" nil nil nil nil nil nil nil nil \"u\" \"c\" \"t\" nil]\n"

/-- The record `c5_text9` parses to. -/
def c5_rec9 : Rec9 :=
  { firstname := "John", lastname := "", affix := [], aka := [],
    company := "", phone := [], address := [], net := [], fields := [],
    uuid := "u", creation := "c", timestamp := "t" }

/-- A bare version-2 record whose lastname slot is `nil`. -/
def c5_ctext : String := "[\"John\" nil nil nil nil nil nil nil nil]"

/-- Version-2 input whose record has two phone entries with the same tag,
written in the syntax the grammar accepts (bare integers after the tag). -/
def c8_text : String :=
  ";;; file-version: 2\n[\"X\" \"Y\" nil nil ([\"Home\" 555 1234] [\"Home\" 555 5678]) nil nil nil nil]\n"

/-- The record `c8_text` parses to: one `Home` key, last value retained. -/
def c8_rec : Rec2 :=
  { firstname := "X", lastname := "Y", aka := [], company := "",
    phone := [("Home", PhoneVal.ints [555, 5678])], address := [],
    net := [], fields := [] }

/-- A phone group in the spec's notation, with parentheses around the
integers — the syntax the claim C8 quotes. -/
def c8_spec_text : String :=
  "[\"X\" \"Y\" nil nil ([\"Home\" (555 1234)] [\"Home\" (555 5678)]) nil nil nil nil]"

/-- A record used by the C9 witness. -/
def c9_rec : Record := { firstname := "W", fields := [("spouse", "Wilma")] }

/-- A database used by the C9 witness. -/
def c9_db : BBDB := { userfields := ["net"], records := [c9_rec] }

/-- A record with an empty firstname, for C6. -/
def c6_rec : Record := { firstname := "", lastname := "Smith" }

/-! ## Helper lemmas -/

theorem rep_eq_nil {s : List Char} (h : rep s = []) : s = [] := by
  cases s with
  | nil => rfl
  | cons c t =>
    unfold rep at h
    split at h <;> simp at h

theorem rep_head_ne_quote {s : List Char} {d : Char} {r : List Char}
    (h : rep s = d :: r) : d ≠ '"' := by
  cases s with
  | nil => simp [rep] at h
  | cons c t =>
    unfold rep at h
    split at h
    · intro he
      cases h
      simp at he
    · next hc =>
      intro he
      cases h
      exact hc he

theorem unrep_cons₂ (c d : Char) (t : List Char) :
    unrep (c :: d :: t) =
      if c = '\\' then
        (if d = '"' then '"' :: unrep t else c :: unrep (d :: t))
      else c :: unrep (d :: t) := rfl

theorem unrep_rep (s : List Char) : unrep (rep s) = s := by
  induction s with
  | nil => rfl
  | cons c t ih =>
    by_cases hc : c = '"'
    · subst hc
      simp only [rep, if_true]
      rw [unrep_cons₂]
      simp [ih]
    · simp only [rep, if_neg hc]
      cases ht : rep t with
      | nil =>
        have : t = [] := rep_eq_nil ht
        subst this
        simp [unrep]
      | cons d r =>
        have hd : d ≠ '"' := rep_head_ne_quote ht
        rw [unrep_cons₂]
        simp only [if_neg hd, ite_self]
        rw [← ht, ih]

theorem getLast?_cons_getD {α : Type} :
    ∀ (l : List α) (a x : α), ((a :: l).getLast?).getD x = (l.getLast?).getD a
  | [], _, _ => rfl
  | b :: t, a, x => by
    rw [List.getLast?_cons_cons]
    cases h : (b :: t).getLast? with
    | none => simp [List.getLast?_eq_none_iff] at h
    | some v => rfl

theorem foldl_getD_eq_getLast {α β : Type} (f : β → Option α) :
    ∀ (xs : List β) (init : α),
      xs.foldl (fun a b => (f b).getD a) init = ((xs.filterMap f).getLast?).getD init
  | [], _ => rfl
  | b :: t, init => by
    rw [List.foldl_cons, List.filterMap_cons]
    cases h : f b with
    | none => simp only [h, Option.getD_none]; exact foldl_getD_eq_getLast f t init
    | some v =>
      simp only [h, Option.getD_some]
      rw [foldl_getD_eq_getLast f t v, getLast?_cons_getD]

theorem read_step_coding (db : BBDB) (l : List Char) :
    (read_step db l).coding = (codingOfLine l).getD db.coding := by
  unfold read_step codingOfLine
  by_cases h : l.head? = some ';'
  · rw [if_pos h, if_pos h]
    cases re_search_coding l <;> cases re_search_fileversion l <;>
      cases re_search_userfields l <;> rfl
  · rw [if_neg h, if_neg h]
    rfl

theorem read_step_fileversion (db : BBDB) (l : List Char) :
    (read_step db l).fileversion = (fileversionOfLine l).getD db.fileversion := by
  unfold read_step fileversionOfLine
  by_cases h : l.head? = some ';'
  · rw [if_pos h, if_pos h]
    cases re_search_coding l <;> cases re_search_fileversion l <;>
      cases re_search_userfields l <;> rfl
  · rw [if_neg h, if_neg h]
    rfl

theorem read_step_userfields (db : BBDB) (l : List Char) :
    (read_step db l).userfields = (userfieldsOfLine l).getD db.userfields := by
  unfold read_step userfieldsOfLine
  by_cases h : l.head? = some ';'
  · rw [if_pos h, if_pos h]
    cases re_search_coding l <;> cases re_search_fileversion l <;>
      cases re_search_userfields l <;> rfl
  · rw [if_neg h, if_neg h]
    rfl

theorem read_props_coding (lines : List (List Char)) :
    ∀ db : BBDB, (read_props db lines).coding =
      lines.foldl (fun a l => (codingOfLine l).getD a) db.coding := by
  induction lines with
  | nil => intro db; rfl
  | cons l ls ih =>
    intro db
    show (read_props (read_step db l) ls).coding = _
    rw [ih, read_step_coding]
    rfl

theorem read_props_fileversion (lines : List (List Char)) :
    ∀ db : BBDB, (read_props db lines).fileversion =
      lines.foldl (fun a l => (fileversionOfLine l).getD a) db.fileversion := by
  induction lines with
  | nil => intro db; rfl
  | cons l ls ih =>
    intro db
    show (read_props (read_step db l) ls).fileversion = _
    rw [ih, read_step_fileversion]
    rfl

theorem read_props_userfields (lines : List (List Char)) :
    ∀ db : BBDB, (read_props db lines).userfields =
      lines.foldl (fun a l => (userfieldsOfLine l).getD a) db.userfields := by
  induction lines with
  | nil => intro db; rfl
  | cons l ls ih =>
    intro db
    show (read_props (read_step db l) ls).userfields = _
    rw [ih, read_step_userfields]
    rfl

theorem mem_addTag {x : String} {u : List String} (t : String) (h : x ∈ u) :
    x ∈ addTag u t := by
  unfold addTag
  split
  · exact h
  · exact List.mem_append_left _ h

theorem mem_addTag_self (u : List String) (t : String) : t ∈ addTag u t := by
  unfold addTag
  split
  · assumption
  · exact List.mem_append_right _ (List.mem_singleton_self t)

theorem addTag_of_mem {u : List String} {t : String} (h : t ∈ u) : addTag u t = u :=
  if_pos h

theorem mem_foldl_addTag {x : String} :
    ∀ (ts : List String) (u : List String), x ∈ u → x ∈ ts.foldl addTag u
  | [], _, h => h
  | t :: ts, u, h => mem_foldl_addTag ts (addTag u t) (mem_addTag t h)

theorem mem_foldl_addTag_self {x : String} :
    ∀ (ts : List String) (u : List String), x ∈ ts → x ∈ ts.foldl addTag u
  | t :: ts, u, h => by
    rcases List.mem_cons.mp h with h1 | h2
    · subst h1
      exact mem_foldl_addTag ts _ (mem_addTag_self u x)
    · exact mem_foldl_addTag_self ts (addTag u t) h2

theorem foldl_addTag_of_all_mem :
    ∀ (ts : List String) (u : List String), (∀ t ∈ ts, t ∈ u) → ts.foldl addTag u = u
  | [], _, _ => rfl
  | t :: ts, u, h => by
    rw [List.foldl_cons, addTag_of_mem (h t (List.mem_cons_self t ts))]
    exact foldl_addTag_of_all_mem ts u (fun x hx => h x (List.mem_cons_of_mem t hx))

theorem mem_recfold {x : String} :
    ∀ (rs : List Record) (u : List String), x ∈ u →
      x ∈ rs.foldl (fun u r => (r.fields.map Prod.fst).foldl addTag u) u
  | [], _, h => h
  | _ :: rs, _, h => mem_recfold rs _ (mem_foldl_addTag _ _ h)

theorem mem_recfold_tag {x : String} :
    ∀ (rs : List Record) (u : List String) (r : Record), r ∈ rs →
      x ∈ r.fields.map Prod.fst →
      x ∈ rs.foldl (fun u r => (r.fields.map Prod.fst).foldl addTag u) u
  | r0 :: rs, u, r, hr, hx => by
    rcases List.mem_cons.mp hr with h1 | h2
    · subst h1
      exact mem_recfold rs _ (mem_foldl_addTag_self _ _ hx)
    · exact mem_recfold_tag rs _ r h2 hx

theorem recfold_of_all_mem :
    ∀ (rs : List Record) (u : List String),
      (∀ r ∈ rs, ∀ t ∈ r.fields.map Prod.fst, t ∈ u) →
      rs.foldl (fun u r => (r.fields.map Prod.fst).foldl addTag u) u = u
  | [], _, _ => rfl
  | r :: rs, u, h => by
    rw [List.foldl_cons, foldl_addTag_of_all_mem _ _ (h r (List.mem_cons_self r rs))]
    exact recfold_of_all_mem rs u (fun r2 hr2 => h r2 (List.mem_cons_of_mem r hr2))

/-! ## Claim theorems -/

/-- C1: the round-trip law fails on the code because serialization itself
raises.  For the spec's own concrete record — built purely in memory, with
the phone value as an ordered integer sequence, using only fields of the
compact variant — `BBDB.write` raises `AttributeError` (embedded as
`none`): `Record.outputs` applies `quote` to the phone value, and a list
of integers has no `.replace` method.  Hence `parse(serialize(...))`
cannot return a database equal to the record, as the claim requires. -/
theorem c1_serialize_blocks_roundtrip : BBDB.write fredDB = none := rfl

/-- C2: serialization is not total.  A well-formed in-memory database whose
record holds a phone entry with an ordered sequence of integers makes
`BBDB.write` raise `AttributeError` (embedded as `none`), contradicting
the claim that serialization never fails. -/
theorem c2_serialize_fails_on_integer_phone : BBDB.write officeDB = none := rfl

/-- C3 (amended): an extracted file version outside the supported set makes
`parse` raise `KeyError` from the `grammars` lookup; the version-2 default
applies only when no file version is extracted from the text (and the
version argument is absent), in which case the lookup yields the compact
grammar and parsing proceeds. -/
theorem c3_version_selection :
    (∀ (text : List Char) (hint : Option Nat) (v : Nat),
        (parser_scan (splitLines text)).2 = some v → v ≠ 2 → v ≠ 9 →
        parse text hint = Except.error (ParseErr.keyError v)) ∧
      (∀ text : List Char, (parser_scan (splitLines text)).2 = none →
        grammars (selectVersion text none) = some GrammarV.v2) := by
  constructor
  · intro text hint v hv h2 h9
    have hsel : selectVersion text hint = v := by
      unfold selectVersion
      rw [hv]
    have hg : grammars v = none := by
      unfold grammars
      rw [if_neg h2, if_neg h9]
    unfold parse
    rw [hsel, hg]
  · intro text h
    have hsel : selectVersion text none = 2 := by
      unfold selectVersion
      rw [h]
    rw [hsel]
    rfl

/-- C3 witness: version 7 is declared, so `parse` raises `KeyError 7`;
a comment-only text declaring no version selects the version-2 grammar. -/
theorem c3_version_selection_witness :
    parse (String.data ";;; file-version: 7\n") none =
        Except.error (ParseErr.keyError 7) ∧
      grammars (selectVersion (String.data "; hello\n") none) = some GrammarV.v2 :=
  ⟨c3_version_selection.1 _ none 7 (by rfl) (by decide) (by decide),
    c3_version_selection.2 _ (by rfl)⟩

/-- C3 counterexample: the claim says a declared version 5 falls back to the
version-2 grammar and parsing proceeds; in fact `parse` raises `KeyError`. -/
theorem c3_unknown_version_keyerror :
    parse (String.data ";;; file-version: 5\n") none =
      Except.error (ParseErr.keyError 5) := rfl

/-- C4 (amended): for each header property of `BBDB.read` (coding,
fileversion, userfields), every matching comment line overwrites the stored
value, so the value stored after the scan is the one extracted from the
LAST matching line (the initial attribute when no line matches). -/
theorem c4_last_match_wins (db : BBDB) (lines : List (List Char)) :
    (read_props db lines).coding =
        ((lines.filterMap codingOfLine).getLast?).getD db.coding ∧
      (read_props db lines).fileversion =
        ((lines.filterMap fileversionOfLine).getLast?).getD db.fileversion ∧
      (read_props db lines).userfields =
        ((lines.filterMap userfieldsOfLine).getLast?).getD db.userfields := by
  refine ⟨?_, ?_, ?_⟩
  · rw [read_props_coding lines db, foldl_getD_eq_getLast]
  · rw [read_props_fileversion lines db, foldl_getD_eq_getLast]
  · rw [read_props_userfields lines db, foldl_getD_eq_getLast]

/-- C4 counterexample: with two comment lines declaring file-version 3 and
then 4, the stored fileversion is 4 (last match), not 3 (first match) as
the claim states. -/
theorem c4_first_match_loses :
    (read_props BBDB_init
        [String.data ";;; file-version: 3", String.data ";;; file-version: 4"]).fileversion = 4 ∧
      (read_props BBDB_init
        [String.data ";;; file-version: 3", String.data ";;; file-version: 4"]).fileversion ≠ 3 :=
  ⟨rfl, by decide⟩

/-- C5 (amended): any value produced in the lastname slot of either grammar
is a string — either the unescaped quoted string that matched, or the empty
string when the literal `nil` matched; the grammar does accept `nil` in the
lastname position, and both grammar variants then yield a record whose
lastname is the empty string. -/
theorem c5_lastname_string_or_nil :
    (∀ (l : List Char) (v : String) (rest : List Char),
        parse_lastname l = some (v, rest) →
        (∃ s, parse_str l = some (s, rest) ∧ v = s) ∨
          (parse_nil l = some ((), rest) ∧ v = "")) ∧
      parse c5_text2.data none = Except.ok ⟨none, some 2, Sum.inl [c5_rec2]⟩ ∧
      parse c5_text9.data none = Except.ok ⟨none, some 9, Sum.inr [c5_rec9]⟩ := by
  refine ⟨?_, rfl, rfl⟩
  intro l v rest h
  unfold parse_lastname at h
  cases hs : parse_str l with
  | some p =>
    rw [hs] at h
    cases h
    exact Or.inl ⟨v, rfl, rfl⟩
  | none =>
    rw [hs] at h
    cases hn : parse_nil l with
    | none =>
      rw [hn] at h
      simp at h
    | some q =>
      rw [hn] at h
      obtain ⟨⟨⟩, r⟩ := q
      cases h
      exact Or.inr ⟨rfl, rfl⟩

/-- C5 witness: the amended description evaluated at the input `nil]`,
where `parse_lastname` succeeds with the empty string. -/
theorem c5_lastname_witness :
    (∃ s, parse_str (String.data "nil]") = some (s, String.data "]") ∧
        ("" : String) = s) ∨
      (parse_nil (String.data "nil]") = some ((), String.data "]") ∧
        ("" : String) = "") :=
  c5_lastname_string_or_nil.1 (String.data "nil]") "" (String.data "]") (by rfl)

/-- C5 counterexample: the grammar does accept a non-string value — the
literal `nil` — in the lastname position: a record whose lastname slot is
`nil` parses successfully under the version-2 grammar. -/
theorem c5_nil_lastname_accepted : (parse_record_2 c5_ctext.data).isSome = true := rfl

/-- C6 (amended): `Record.name` is the concatenation of firstname and
lastname with a single separating space and NO trimming: the space is
always present, even when either part is empty. -/
theorem c6_name_untrimmed (r : Record) :
    (Record.name r).data = r.firstname.data ++ ' ' :: r.lastname.data := by
  show (r.firstname ++ " " ++ r.lastname).data = _
  rw [String.data_append, String.data_append, List.append_assoc]
  rfl

/-- C6 counterexample: a record with empty firstname has name " Smith" with
a leading space, not "Smith" as the trimming claim predicts. -/
theorem c6_name_not_trimmed_example :
    Record.name c6_rec = " Smith" ∧ Record.name c6_rec ≠ "Smith" :=
  ⟨rfl, by decide⟩

/-- C7: for every string s, unescaping the escape of s gives back s:
`make_string` (strip quotes, un-escape backslash+quote) is a left inverse
of `quote` (wrap in quotes, escape each internal quote). -/
theorem c7_unescape_escape_roundtrip (s : String) : make_string (quote s) = s := by
  cases s with
  | mk d =>
    show String.mk (unrep ((('"' :: (rep d ++ ['"'])).drop 1).dropLast)) = String.mk d
    rw [show ('"' :: (rep d ++ ['"'])).drop 1 = rep d ++ ['"'] from rfl,
      List.dropLast_concat, unrep_rep]

/-- C8 (amended): parsing a record with two phone entries sharing the tag
"Home", in the phone syntax the grammar accepts (bare integers after the
tag), yields a phone mapping with a single "Home" key holding the integer
sequence (555 5678): the last value wins. -/
theorem c8_duplicate_tag_last_wins :
    parse c8_text.data none = Except.ok ⟨none, some 2, Sum.inl [c8_rec]⟩ := rfl

/-- C8 counterexample: in the syntax the claim quotes, with parentheses
around the integers — `["Home" (555 1234)]` — the record does not parse at
all (pyparsing `Group` adds no parentheses to the concrete phone syntax),
so the claim's stated parse cannot yield any phone mapping. -/
theorem c8_spec_syntax_rejected :
    parse c8_spec_text.data none = Except.error ParseErr.parseError := rfl

/-- C9: after one `update_fields` every tag appearing in any record's
fields mapping is present in `userfields`, and a second consecutive call
leaves the database unchanged (idempotence). -/
theorem c9_update_fields_complete_idempotent (db : BBDB) :
    (∀ r ∈ db.records, ∀ kv ∈ r.fields, kv.1 ∈ (BBDB.update_fields db).userfields) ∧
      BBDB.update_fields (BBDB.update_fields db) = BBDB.update_fields db := by
  constructor
  · intro r hr kv hkv
    exact mem_recfold_tag db.records db.userfields r hr
      (List.mem_map_of_mem Prod.fst hkv)
  · have hall : ∀ r ∈ db.records, ∀ t ∈ r.fields.map Prod.fst,
        t ∈ db.records.foldl (fun u r => (r.fields.map Prod.fst).foldl addTag u)
          db.userfields :=
      fun r hr t ht => mem_recfold_tag db.records db.userfields r hr ht
    unfold BBDB.update_fields
    congr 1
    exact recfold_of_all_mem db.records _ hall

/-- C9 witness: the theorem applied to the concrete database `c9_db`. -/
theorem c9_update_fields_witness :
    ("spouse" ∈ (BBDB.update_fields c9_db).userfields) ∧
      BBDB.update_fields (BBDB.update_fields c9_db) = BBDB.update_fields c9_db :=
  ⟨(c9_update_fields_complete_idempotent c9_db).1 c9_rec
      (List.mem_singleton_self _) ("spouse", "Wilma") (List.mem_singleton_self _),
    (c9_update_fields_complete_idempotent c9_db).2⟩

/-- C10: a `BBDB` constructed with no arguments has coding "utf-8-emacs",
fileversion 6, empty userfields and records; and 6 is not a key of the
parser's `grammars` table, whose only keys are 2 and 9. -/
theorem c10_default_database :
    BBDB_init.coding = "utf-8-emacs" ∧ BBDB_init.fileversion = 6 ∧
      BBDB_init.userfields = [] ∧ BBDB_init.records = [] ∧
      grammars 6 = none ∧ (grammars 2).isSome = true ∧ (grammars 9).isSome = true :=
  ⟨rfl, rfl, rfl, rfl, rfl, rfl, rfl⟩
